import Mathlib

set_option maxHeartbeats 1000000

/-! Shallow embedding of the rustarok ground-map (GND) loader (`src/gnd.rs`)
and of the properties of its specification.

Modelling conventions:
* `f32` arithmetic is idealised as exact arithmetic: over `ℝ` where the code
  computes with `sqrt`/`log2`/`powf`/`normalize`, over `ℚ` where only
  comparisons, divisions by constants and field selections occur (heights,
  water levels, texture coordinates of the water mesh).
* Machine integers are `ℕ`/`ℤ`; `-1` sentinels in tile references are `ℤ`.
* Mutable byte buffers (`Vec<u8>` images) are functions `ℕ → ℕ` updated
  pointwise in the order the source writes them.
* `Vec::push` inside the mesh loops becomes list concatenation in loop order.
* A Rust panic that a claim depends on is modelled explicitly (an `Option`
  result or an `Except` error); panics on malformed inputs that no claim
  touches (out-of-range `Vec` indexing into the tile table, short lightmap
  data) are modelled by total functions, as noted at each definition.
* The byte-cursor reader (`crate::common::BinaryReader`) is not part of the
  sources; following the specification's interface section it is modelled at
  table granularity by the pre-split record values it would yield. -/

/-- Three-component `f32` vector (`nalgebra::Vector3<f32>`), idealised over `ℝ`. -/
structure Vec3 where
  x : ℝ
  y : ℝ
  z : ℝ

noncomputable instance : Add Vec3 := ⟨fun a b => ⟨a.x + b.x, a.y + b.y, a.z + b.z⟩⟩

noncomputable instance : Sub Vec3 := ⟨fun a b => ⟨a.x - b.x, a.y - b.y, a.z - b.z⟩⟩

noncomputable instance : Zero Vec3 := ⟨⟨0, 0, 0⟩⟩

/-- Euclidean norm of a `Vector3<f32>` (`nalgebra`'s `norm`). -/
noncomputable def Vec3.norm (v : Vec3) : ℝ := Real.sqrt (v.x ^ 2 + v.y ^ 2 + v.z ^ 2)

/-- `nalgebra`'s `normalize` / `normalize_mut`: componentwise division by the
norm.  Normalizing the zero vector yields NaN in Rust; Lean's division by zero
makes it the zero vector here, a junk value no theorem below depends on. -/
noncomputable def Vec3.normalize (v : Vec3) : Vec3 :=
  ⟨v.x / v.norm, v.y / v.norm, v.z / v.norm⟩

/-- Cross product of 3-vectors. -/
noncomputable def Vec3.cross (a b : Vec3) : Vec3 :=
  ⟨a.y * b.z - a.z * b.y, a.z * b.x - a.x * b.z, a.x * b.y - a.y * b.x⟩

/-- `nalgebra_glm::triangle_normal`. -/
noncomputable def triangle_normal (p1 p2 p3 : Vec3) : Vec3 :=
  Vec3.normalize (Vec3.cross (p1 - p2) (p1 - p3))

/-- A row of the tile table after atlas remapping (`Gnd::load_tiles`): the
eight atlas-space UV corners, the dense texture index, the lightmap index and
the RGBA colour. -/
structure Tile where
  u1 : ℝ
  u2 : ℝ
  u3 : ℝ
  u4 : ℝ
  v1 : ℝ
  v2 : ℝ
  v3 : ℝ
  v4 : ℝ
  texture : ℕ
  light : ℕ
  color : ℕ × ℕ × ℕ × ℕ

/-- A raw tile record as read from the file: eight raw UV corners, the raw
texture slot (`u16`), the lightmap index and the colour. -/
structure RawTile where
  u1 : ℝ
  u2 : ℝ
  u3 : ℝ
  u4 : ℝ
  v1 : ℝ
  v2 : ℝ
  v3 : ℝ
  v4 : ℝ
  textureSlot : ℕ
  light : ℕ
  color : ℕ × ℕ × ℕ × ℕ

/-- One grid cell: four corner heights (already divided by the 5.0 scale) and
three signed tile references, `-1` meaning "no face here". -/
structure Surface where
  height : Fin 4 → ℚ
  tile_up : ℤ
  tile_front : ℤ
  tile_right : ℤ

/-- A raw surface record, heights still in file units. -/
structure RawSurface where
  height : Fin 4 → ℚ
  tile_up : ℤ
  tile_front : ℤ
  tile_right : ℤ

/-- One ground-mesh vertex (position, normal, atlas UV, lightmap UV, tile UV). -/
structure MeshVertex where
  pos : Vec3
  normal : Vec3
  texcoord : ℝ × ℝ
  lightcoord : ℝ × ℝ
  tilecoord : ℝ × ℝ

/-- One `[MeshVertex; 6]` sextet pushed onto the ground mesh. -/
structure Quad where
  v0 : MeshVertex
  v1 : MeshVertex
  v2 : MeshVertex
  v3 : MeshVertex
  v4 : MeshVertex
  v5 : MeshVertex

/-- One water-mesh vertex; water geometry never leaves `ℚ`. -/
structure WaterVertex where
  pos : ℚ × ℚ × ℚ
  texcoord : ℚ × ℚ

/-- One `[WaterVertex; 6]` sextet pushed onto the water mesh. -/
structure WaterQuad where
  w0 : WaterVertex
  w1 : WaterVertex
  w2 : WaterVertex
  w3 : WaterVertex
  w4 : WaterVertex
  w5 : WaterVertex

/-- `LightmapData`: per-entry stride, entry count and the flat byte buffer
(modelled as a total byte function; the loader reads `count * per_cell * 4`
bytes). -/
structure LightmapData where
  per_cell : ℕ
  count : ℕ
  data : ℕ → ℕ

namespace Gnd

/-- Lookup in the ordered association list modelling `BTreeMap<String, usize>`. -/
def btLookup (k : String) : List (String × ℕ) → Option ℕ
  | [] => none
  | (k1, v1) :: rest => if k = k1 then some v1 else btLookup k rest

/-- Insert into the ordered association list modelling `BTreeMap<String, usize>`:
keys are kept sorted, as a `BTreeMap` iterates them in `Ord` order. -/
def btInsert (k : String) (v : ℕ) : List (String × ℕ) → List (String × ℕ)
  | [] => [(k, v)]
  | (k1, v1) :: rest =>
    if k < k1 then (k, v) :: (k1, v1) :: rest
    else if k = k1 then (k, v) :: rest
    else (k1, v1) :: btInsert k v rest

/-- One iteration of the `Gnd::load_textures` loop: look the name up, insert
it with index `map.len()` when absent (`entry(..).or_insert(current_count)`),
and push the resulting dense index. -/
def texStep (st : List (String × ℕ) × List ℕ) (name : String) :
    List (String × ℕ) × List ℕ :=
  match btLookup name st.1 with
  | some v => (st.1, st.2 ++ [v])
  | none => (btInsert name st.1.length st.1, st.2 ++ [st.1.length])

/-- `Gnd::load_textures` (src/gnd.rs:604-624), given the sequence of
fixed-width names the reader yields in file order.  Returns
`(texture_names, texture_indices)`; `texture_names` is produced by iterating
the `BTreeMap`, i.e. in sorted key order. -/
def load_textures (names : List String) : List String × List ℕ :=
  let st := names.foldl texStep ([], [])
  (st.1.map Prod.fst, st.2)

/-- The four corner normals (up-left, up-right, bottom-right, bottom-left)
produced for one cell by `Gnd::smooth_normal`. -/
structure Corners where
  ul : Vec3
  ur : Vec3
  br : Vec3
  bl : Vec3

/-- Pass 1 of `Gnd::smooth_normal` (src/gnd.rs:527-540) for one cell with a
top face: the two triangle normals of the cell quad, summed and normalized. -/
noncomputable def flat_normal (s : Surface) (x y : ℕ) : Vec3 :=
  let a : Vec3 := ⟨(((x + 0) * 2 : ℕ) : ℝ), (s.height 0 : ℝ), (((y + 0) * 2 : ℕ) : ℝ)⟩
  let b : Vec3 := ⟨(((x + 1) * 2 : ℕ) : ℝ), (s.height 1 : ℝ), (((y + 0) * 2 : ℕ) : ℝ)⟩
  let c : Vec3 := ⟨(((x + 1) * 2 : ℕ) : ℝ), (s.height 3 : ℝ), (((y + 1) * 2 : ℕ) : ℝ)⟩
  let d : Vec3 := ⟨(((x + 0) * 2 : ℕ) : ℝ), (s.height 2 : ℝ), (((y + 1) * 2 : ℕ) : ℝ)⟩
  let t1 := triangle_normal a b c
  let t2 := triangle_normal c d a
  Vec3.normalize (t1 + t2)

/-- The `tmp` table of per-cell flat normals built by pass 1, as a function of
the row-major cell index; cells without a top face keep the zero vector. -/
noncomputable def flat_normals (w h : ℕ) (surfaces : ℕ → Surface) : ℕ → Vec3 :=
  fun i =>
    if i < w * h ∧ (surfaces i).tile_up > -1 then flat_normal (surfaces i) (i % w) (i / w)
    else 0

/-- The bounded neighbour lookup `or` inside `Gnd::smooth_normal`
(src/gnd.rs:546-553).  `len` is `tmp.len()`, i.e. `width * height`; the source
computes `i = (y * width + x) as usize` and returns zero only when
`x < 0 || y < 0 || tmp.len() <= i` — it has no check against `x >= width`. -/
noncomputable def or (tmp : ℕ → Vec3) (len : ℕ) (x y width : ℤ) : Vec3 :=
  let i := y * width + x
  if x < 0 ∨ y < 0 ∨ (len : ℤ) ≤ i then 0 else tmp i.toNat

/-- Pass 2 of `Gnd::smooth_normal` (src/gnd.rs:555-586): each corner normal is
the normalized sum of the cell's own flat normal and of three `or` lookups at
the corner's fixed neighbour offsets.  The `tiles` argument mirrors the unused
parameter of the source function. -/
noncomputable def smooth_normal (w h : ℕ) (surfaces : ℕ → Surface)
    (tiles : List Tile) : ℕ → Corners :=
  let tmp := flat_normals w h surfaces
  fun idx =>
    let x : ℤ := (idx % w : ℕ)
    let y : ℤ := (idx / w : ℕ)
    { ul := Vec3.normalize (tmp idx + or tmp (w * h) (x - 1) (y + 0) w +
        or tmp (w * h) (x - 1) (y - 1) w + or tmp (w * h) (x + 0) (y - 1) w)
      ur := Vec3.normalize (tmp idx + or tmp (w * h) (x + 1) (y + 0) w +
        or tmp (w * h) (x + 1) (y - 1) w + or tmp (w * h) (x + 0) (y - 1) w)
      br := Vec3.normalize (tmp idx + or tmp (w * h) (x + 1) (y + 0) w +
        or tmp (w * h) (x + 1) (y + 1) w + or tmp (w * h) (x + 0) (y + 1) w)
      bl := Vec3.normalize (tmp idx + or tmp (w * h) (x - 1) (y + 0) w +
        or tmp (w * h) (x - 1) (y + 1) w + or tmp (w * h) (x + 0) (y + 1) w) }

/-- `Gnd::lightmap_atlas` (src/gnd.rs:372-383).  The column index
`i % (l_count_w as u16)` panics in Rust when the truncated divisor is zero —
only the row index is guarded, with `checked_div(..).unwrap_or(0)` — so a zero
`l_count_w` is modelled as `none`. -/
noncomputable def lightmap_atlas (i : ℕ) (l_count_w l_count_h l_width l_height : ℝ) :
    Option (ℝ × ℝ × ℝ × ℝ) :=
  let w16 : ℕ := ⌊l_count_w⌋₊
  if w16 = 0 then none
  else some
    ((((i % w16 : ℕ) : ℝ) + 0.125) / l_count_w * (l_count_w * 8 / l_width),
     (((i % w16 : ℕ) : ℝ) + 0.875) / l_count_w * (l_count_w * 8 / l_width),
     (((i / w16 : ℕ) : ℝ) + 0.125) / l_count_h * (l_count_h * 8 / l_height),
     (((i / w16 : ℕ) : ℝ) + 0.875) / l_count_h * (l_count_h * 8 / l_height))

/-- `atlas_cols` (src/gnd.rs:399): `(texture_count as f32).sqrt().round()`. -/
noncomputable def atlas_cols (texture_count : ℕ) : ℝ :=
  ((round (Real.sqrt (texture_count : ℝ)) : ℤ) : ℝ)

/-- `atlas_rows` (src/gnd.rs:400): `(texture_count as f32).sqrt().ceil()`. -/
noncomputable def atlas_rows (texture_count : ℕ) : ℝ :=
  ((⌈Real.sqrt (texture_count : ℝ)⌉ : ℤ) : ℝ)

/-- `atlas_width` (src/gnd.rs:401): `2f32.powf((atlas_cols * 258).log2().ceil())`. -/
noncomputable def atlas_width (texture_count : ℕ) : ℝ :=
  (2 : ℝ) ^ (⌈Real.logb 2 (atlas_cols texture_count * 258)⌉ : ℤ)

/-- `atlas_height` (src/gnd.rs:402): `2f32.powf((atlas_rows * 258).log2().ceil())`. -/
noncomputable def atlas_height (texture_count : ℕ) : ℝ :=
  (2 : ℝ) ^ (⌈Real.logb 2 (atlas_rows texture_count * 258)⌉ : ℤ)

/-- The truncating `atlas_cols as usize` cast used for `texture % ..`. -/
noncomputable def atlas_cols_usize (texture_count : ℕ) : ℕ :=
  (round (Real.sqrt (texture_count : ℝ))).toNat

/-- The per-tile body of `Gnd::load_tiles` (src/gnd.rs:408-435): remap the
eight raw UV corners of one tile into atlas space, given the dense texture
index already resolved through `texture_indices`.  (With a zero texture count
the `texture % atlas_cols as usize` would panic in Rust, while Lean's `% 0`
is total; that case is unreachable, as an empty texture table leaves no slot
for a tile to reference.) -/
noncomputable def tileOfRaw (texture_count : ℕ) (texture : ℕ) (r : RawTile) : Tile :=
  let atlas_factor_u : ℝ := atlas_cols texture_count * 258 / atlas_width texture_count
  let atlas_factor_v : ℝ := atlas_rows texture_count * 258 / atlas_height texture_count
  let atlas_px_u : ℝ := 1 / 258
  let atlas_px_v : ℝ := 1 / 258
  let u : ℝ := ((texture % atlas_cols_usize texture_count : ℕ) : ℝ)
  let v : ℝ := ((⌊(texture : ℝ) / atlas_cols texture_count⌋ : ℤ) : ℝ)
  { u1 := (u + r.u1 * (1 - atlas_px_u * 2) + atlas_px_u) * atlas_factor_u / atlas_cols texture_count
    u2 := (u + r.u2 * (1 - atlas_px_u * 2) + atlas_px_u) * atlas_factor_u / atlas_cols texture_count
    u3 := (u + r.u3 * (1 - atlas_px_u * 2) + atlas_px_u) * atlas_factor_u / atlas_cols texture_count
    u4 := (u + r.u4 * (1 - atlas_px_u * 2) + atlas_px_u) * atlas_factor_u / atlas_cols texture_count
    v1 := (v + r.v1 * (1 - atlas_px_v * 2) + atlas_px_v) * atlas_factor_v / atlas_rows texture_count
    v2 := (v + r.v2 * (1 - atlas_px_v * 2) + atlas_px_v) * atlas_factor_v / atlas_rows texture_count
    v3 := (v + r.v3 * (1 - atlas_px_v * 2) + atlas_px_v) * atlas_factor_v / atlas_rows texture_count
    v4 := (v + r.v4 * (1 - atlas_px_v * 2) + atlas_px_v) * atlas_factor_v / atlas_rows texture_count
    texture := texture
    light := r.light
    color := r.color }

/-- `Gnd::load_tiles` (src/gnd.rs:396-436).  A raw texture slot outside
`texture_indices` panics in Rust; it is resolved to dense index 0 here, a case
no well-formed file and no claim reaches. -/
noncomputable def load_tiles (texture_count : ℕ) (texture_indices : List ℕ)
    (raw : List RawTile) : List Tile :=
  raw.map fun r => tileOfRaw texture_count (texture_indices.getD r.textureSlot 0) r

/-- `Gnd::load_surfaces` (src/gnd.rs:385-394): each height is divided by 5. -/
def load_surfaces (raw : ℕ → RawSurface) : ℕ → Surface :=
  fun i =>
    { height := fun c => (raw i).height c / 5
      tile_up := (raw i).tile_up
      tile_front := (raw i).tile_front
      tile_right := (raw i).tile_right }

/-- The top-face quad push of the mesh loop (src/gnd.rs:112-163), for cell
`(x, y)`.  `luv` resolves a lightmap index to the `(u1, u2, v1, v2)` that
`Gnd::lightmap_atlas` yields for it. -/
noncomputable def cellTop (surfaces : ℕ → Surface) (tiles : ℕ → Tile)
    (normals : ℕ → Corners) (luv : ℕ → ℝ × ℝ × ℝ × ℝ) (w h x y : ℕ) : List Quad :=
  let cell_a := surfaces (x + y * w)
  if cell_a.tile_up > -1 then
    let tile := tiles cell_a.tile_up.toNat
    let n := normals (y * w + x)
    let u1 := (luv tile.light).1
    let u2 := (luv tile.light).2.1
    let v1 := (luv tile.light).2.2.1
    let v2 := (luv tile.light).2.2.2
    [{ v0 := { pos := ⟨((x : ℝ) + 0) * 2, (cell_a.height 0 : ℝ), ((y : ℝ) + 0) * 2⟩
               normal := ⟨n.ul.x, n.ul.y, n.ul.y⟩
               texcoord := (tile.u1, tile.v1)
               lightcoord := (u1, v1)
               tilecoord := (((x : ℝ) + 0.5) / w, ((y : ℝ) + 0.5) / h) }
       v1 := { pos := ⟨((x : ℝ) + 1) * 2, (cell_a.height 1 : ℝ), ((y : ℝ) + 0) * 2⟩
               normal := ⟨n.ur.x, n.ur.y, n.ur.y⟩
               texcoord := (tile.u2, tile.v2)
               lightcoord := (u2, v1)
               tilecoord := (((x : ℝ) + 1.5) / w, ((y : ℝ) + 0.5) / h) }
       v2 := { pos := ⟨((x : ℝ) + 1) * 2, (cell_a.height 3 : ℝ), ((y : ℝ) + 1) * 2⟩
               normal := ⟨n.br.x, n.br.y, n.br.y⟩
               texcoord := (tile.u4, tile.v4)
               lightcoord := (u2, v2)
               tilecoord := (((x : ℝ) + 1.5) / w, ((y : ℝ) + 1.5) / h) }
       v3 := { pos := ⟨((x : ℝ) + 1) * 2, (cell_a.height 3 : ℝ), ((y : ℝ) + 1) * 2⟩
               normal := ⟨n.br.x, n.br.y, n.br.y⟩
               texcoord := (tile.u4, tile.v4)
               lightcoord := (u2, v2)
               tilecoord := (((x : ℝ) + 1.5) / w, ((y : ℝ) + 1.5) / h) }
       v4 := { pos := ⟨((x : ℝ) + 0) * 2, (cell_a.height 2 : ℝ), ((y : ℝ) + 1) * 2⟩
               normal := ⟨n.bl.x, n.bl.y, n.bl.y⟩
               texcoord := (tile.u3, tile.v3)
               lightcoord := (u1, v2)
               tilecoord := (((x : ℝ) + 0.5) / w, ((y : ℝ) + 1.5) / h) }
       v5 := { pos := ⟨((x : ℝ) + 0) * 2, (cell_a.height 0 : ℝ), ((y : ℝ) + 0) * 2⟩
               normal := ⟨n.ul.x, n.ul.y, n.ul.y⟩
               texcoord := (tile.u1, tile.v1)
               lightcoord := (u1, v1)
               tilecoord := (((x : ℝ) + 0.5) / w, ((y : ℝ) + 0.5) / h) } }]
  else []

/-- The front-face quad push of the mesh loop (src/gnd.rs:214-268): emitted
only when `tile_front > -1` and `y + 1 < height`; all six normals are
`(0, 0, 1)` and all six vertices sit on the `z = (y + 1) * 2` boundary. -/
noncomputable def cellFront (surfaces : ℕ → Surface) (tiles : ℕ → Tile)
    (luv : ℕ → ℝ × ℝ × ℝ × ℝ) (w h x y : ℕ) : List Quad :=
  let cell_a := surfaces (x + y * w)
  if cell_a.tile_front > -1 ∧ y + 1 < h then
    let tile := tiles cell_a.tile_front.toNat
    let cell_b := surfaces (x + (y + 1) * w)
    let u1 := (luv tile.light).1
    let u2 := (luv tile.light).2.1
    let v1 := (luv tile.light).2.2.1
    let v2 := (luv tile.light).2.2.2
    [{ v0 := { pos := ⟨((x : ℝ) + 0) * 2, (cell_b.height 0 : ℝ), ((y : ℝ) + 1) * 2⟩
               normal := ⟨0, 0, 1⟩
               texcoord := (tile.u3, tile.v3)
               lightcoord := (u1, v2)
               tilecoord := (0, 0) }
       v1 := { pos := ⟨((x : ℝ) + 1) * 2, (cell_a.height 3 : ℝ), ((y : ℝ) + 1) * 2⟩
               normal := ⟨0, 0, 1⟩
               texcoord := (tile.u2, tile.v2)
               lightcoord := (u2, v1)
               tilecoord := (0, 0) }
       v2 := { pos := ⟨((x : ℝ) + 1) * 2, (cell_b.height 1 : ℝ), ((y : ℝ) + 1) * 2⟩
               normal := ⟨0, 0, 1⟩
               texcoord := (tile.u4, tile.v4)
               lightcoord := (u2, v2)
               tilecoord := (0, 0) }
       v3 := { pos := ⟨((x : ℝ) + 0) * 2, (cell_b.height 0 : ℝ), ((y : ℝ) + 1) * 2⟩
               normal := ⟨0, 0, 1⟩
               texcoord := (tile.u3, tile.v3)
               lightcoord := (u1, v2)
               tilecoord := (0, 0) }
       v4 := { pos := ⟨((x : ℝ) + 1) * 2, (cell_a.height 3 : ℝ), ((y : ℝ) + 1) * 2⟩
               normal := ⟨0, 0, 1⟩
               texcoord := (tile.u2, tile.v2)
               lightcoord := (u2, v1)
               tilecoord := (0, 0) }
       v5 := { pos := ⟨((x : ℝ) + 0) * 2, (cell_a.height 2 : ℝ), ((y : ℝ) + 1) * 2⟩
               normal := ⟨0, 0, 1⟩
               texcoord := (tile.u1, tile.v1)
               lightcoord := (u1, v1)
               tilecoord := (0, 0) } }]
  else []

/-- The right-face quad push of the mesh loop (src/gnd.rs:270-324): emitted
only when `tile_right > -1` and `x + 1 < width`; all six normals are
`(1, 0, 0)` and all six vertices sit on the `x = (x + 1) * 2` boundary. -/
noncomputable def cellRight (surfaces : ℕ → Surface) (tiles : ℕ → Tile)
    (luv : ℕ → ℝ × ℝ × ℝ × ℝ) (w h x y : ℕ) : List Quad :=
  let cell_a := surfaces (x + y * w)
  if cell_a.tile_right > -1 ∧ x + 1 < w then
    let tile := tiles cell_a.tile_right.toNat
    let cell_b := surfaces ((x + 1) + y * w)
    let u1 := (luv tile.light).1
    let u2 := (luv tile.light).2.1
    let v1 := (luv tile.light).2.2.1
    let v2 := (luv tile.light).2.2.2
    [{ v0 := { pos := ⟨((x : ℝ) + 1) * 2, (cell_a.height 1 : ℝ), ((y : ℝ) + 0) * 2⟩
               normal := ⟨1, 0, 0⟩
               texcoord := (tile.u2, tile.v2)
               lightcoord := (u2, v1)
               tilecoord := (0, 0) }
       v1 := { pos := ⟨((x : ℝ) + 1) * 2, (cell_a.height 3 : ℝ), ((y : ℝ) + 1) * 2⟩
               normal := ⟨1, 0, 0⟩
               texcoord := (tile.u1, tile.v1)
               lightcoord := (u1, v1)
               tilecoord := (0, 0) }
       v2 := { pos := ⟨((x : ℝ) + 1) * 2, (cell_b.height 0 : ℝ), ((y : ℝ) + 0) * 2⟩
               normal := ⟨1, 0, 0⟩
               texcoord := (tile.u4, tile.v4)
               lightcoord := (u2, v2)
               tilecoord := (0, 0) }
       v3 := { pos := ⟨((x : ℝ) + 1) * 2, (cell_b.height 0 : ℝ), ((y : ℝ) + 0) * 2⟩
               normal := ⟨1, 0, 0⟩
               texcoord := (tile.u4, tile.v4)
               lightcoord := (u2, v2)
               tilecoord := (0, 0) }
       v4 := { pos := ⟨((x : ℝ) + 1) * 2, (cell_b.height 2 : ℝ), ((y : ℝ) + 1) * 2⟩
               normal := ⟨1, 0, 0⟩
               texcoord := (tile.u3, tile.v3)
               lightcoord := (u1, v2)
               tilecoord := (0, 0) }
       v5 := { pos := ⟨((x : ℝ) + 1) * 2, (cell_a.height 3 : ℝ), ((y : ℝ) + 1) * 2⟩
               normal := ⟨1, 0, 0⟩
               texcoord := (tile.u1, tile.v1)
               lightcoord := (u1, v1)
               tilecoord := (0, 0) } }]
  else []

/-- All ground-mesh quads the loop body pushes for cell `(x, y)`, in push
order: top face, then front face, then right face. -/
noncomputable def cellQuads (surfaces : ℕ → Surface) (tiles : ℕ → Tile)
    (normals : ℕ → Corners) (luv : ℕ → ℝ × ℝ × ℝ × ℝ) (w h x y : ℕ) : List Quad :=
  cellTop surfaces tiles normals luv w h x y ++
    cellFront surfaces tiles luv w h x y ++
    cellRight surfaces tiles luv w h x y

/-- What identifies the front-face quad of the cell at row `y` among the
quads the loop emits for that cell: its first vertex carries the fixed
normal `(0, 0, 1)` and sits on the `z = (y + 1) * 2` row boundary
(src/gnd.rs:226-227). -/
def IsFrontQuad (y : ℕ) (q : Quad) : Prop :=
  q.v0.normal = ⟨0, 0, 1⟩ ∧ q.v0.pos.z = ((y : ℝ) + 1) * 2

/-- What identifies the right-face quad of the cell at column `x`: its first
vertex carries the fixed normal `(1, 0, 0)` and sits on the
`x = (x + 1) * 2` column boundary (src/gnd.rs:282-283). -/
def IsRightQuad (x : ℕ) (q : Quad) : Prop :=
  q.v0.normal = ⟨1, 0, 0⟩ ∧ q.v0.pos.x = ((x : ℝ) + 1) * 2

/-- `one_if_zero` (src/gnd.rs:165-167). -/
def one_if_zero (i : ℚ) : ℚ := if i = 0 then 1 else i

/-- Rust's `%` on the nonnegative `f32` operands used by the water UVs. -/
def rustRem (a b : ℚ) : ℚ := a - b * ⌊a / b⌋

/-- The water-quad push of the mesh loop (src/gnd.rs:168-211): it sits inside
the `tile_up > -1` branch, and fires only when at least one corner height
exceeds `water_level - water_height`.  All four water corners sit at height
`water_level`. -/
def cellWater (water_level water_height : ℚ) (surfaces : ℕ → Surface)
    (w x y : ℕ) : List WaterQuad :=
  let cell_a := surfaces (x + y * w)
  if cell_a.tile_up > -1 then
    if cell_a.height 0 > water_level - water_height ∨
        cell_a.height 1 > water_level - water_height ∨
        cell_a.height 2 > water_level - water_height ∨
        cell_a.height 3 > water_level - water_height then
      [{ w0 := { pos := (((x : ℚ) + 0) * 2, water_level, (y : ℚ) * 2)
                 texcoord := (rustRem (x : ℚ) 5 / 5, rustRem (y : ℚ) 5 / 5) }
         w1 := { pos := (((x : ℚ) + 1) * 2, water_level, (y : ℚ) * 2)
                 texcoord := (one_if_zero (rustRem ((x : ℚ) + 1) 5 / 5), rustRem (y : ℚ) 5 / 5) }
         w2 := { pos := (((x : ℚ) + 1) * 2, water_level, ((y : ℚ) + 1) * 2)
                 texcoord := (one_if_zero (rustRem ((x : ℚ) + 1) 5 / 5),
                   one_if_zero (rustRem ((y : ℚ) + 1) 5 / 5)) }
         w3 := { pos := (((x : ℚ) + 1) * 2, water_level, ((y : ℚ) + 1) * 2)
                 texcoord := (one_if_zero (rustRem ((x : ℚ) + 1) 5 / 5),
                   one_if_zero (rustRem ((y : ℚ) + 1) 5 / 5)) }
         w4 := { pos := (((x : ℚ) + 0) * 2, water_level, ((y : ℚ) + 1) * 2)
                 texcoord := (rustRem (x : ℚ) 5 / 5, one_if_zero (rustRem ((y : ℚ) + 1) 5 / 5)) }
         w5 := { pos := (((x : ℚ) + 0) * 2, water_level, (y : ℚ) * 2)
                 texcoord := (rustRem (x : ℚ) 5 / 5, rustRem (y : ℚ) 5 / 5) } }]
    else []
  else []

/-- Pointwise store into a byte buffer modelled as a function. -/
def updateF (f : ℕ → ℕ) (i v : ℕ) : ℕ → ℕ := fun j => if j = i then v else f j

/-- Apply a list of `(index, value)` stores in order. -/
def applyWrites (f : ℕ → ℕ) (ws : List (ℕ × ℕ)) : ℕ → ℕ :=
  ws.foldl (fun g p => updateF g p.1 p.2) f

/-- The `(x, y)` pairs visited by the per-cell loops, in source order
(`y` outer, `x` inner). -/
def cellList (w h : ℕ) : List (ℕ × ℕ) :=
  (List.range h).flatMap fun y => (List.range w).map fun x => (x, y)

/-- The byte stores of one cell of `Gnd::create_tiles_color_image`
(src/gnd.rs:497-515): four colour bytes for cells with a top tile, nothing
otherwise. -/
def colorWrites (surfaces : ℕ → Surface) (tiles : ℕ → Tile) (w : ℕ)
    (c : ℕ × ℕ) : List (ℕ × ℕ) :=
  let cell := surfaces (c.2 * w + c.1)
  if cell.tile_up > -1 then
    let color := (tiles cell.tile_up.toNat).color
    let start := (c.2 * w + c.1) * 4
    [(start, color.1), (start + 1, color.2.1), (start + 2, color.2.2.1),
      (start + 3, color.2.2.2)]
  else []

/-- `Gnd::create_tiles_color_image`: a zero-initialised `width*height*4` byte
buffer with each top-tiled cell's colour copied in. -/
def create_tiles_color_image (w h : ℕ) (surfaces : ℕ → Surface)
    (tiles : ℕ → Tile) : ℕ → ℕ :=
  (cellList w h).foldl (fun f c => applyWrites f (colorWrites surfaces tiles w c))
    (fun _ => 0)

/-- The byte stores of one cell of `Gnd::create_shadowmap_image`
(src/gnd.rs:463-495): an 8×8 block copied from the lightmap's shadow layer
when the cell has a top tile, an 8×8 block of 255 otherwise. -/
def shadowWrites (surfaces : ℕ → Surface) (tiles : ℕ → Tile)
    (lightmap : LightmapData) (w : ℕ) (c : ℕ × ℕ) : List (ℕ × ℕ) :=
  let x := c.1
  let y := c.2
  let cell := surfaces (y * w + x)
  if cell.tile_up > -1 then
    let index := (tiles cell.tile_up.toNat).light * 4 * lightmap.per_cell
    (List.range 8).flatMap fun i => (List.range 8).map fun j =>
      ((x * 8 + i) + (y * 8 + j) * (w * 8), lightmap.data (index + i + j * 8))
  else
    (List.range 8).flatMap fun i => (List.range 8).map fun j =>
      ((x * 8 + i) + (y * 8 + j) * (w * 8), 255)

/-- `Gnd::create_shadowmap_image`: a `width*8 × height*8` single-channel
buffer (zero-initialised) filled cell by cell. -/
def create_shadowmap_image (w h : ℕ) (surfaces : ℕ → Surface) (tiles : ℕ → Tile)
    (lightmap : LightmapData) : ℕ → ℕ :=
  (cellList w h).foldl
    (fun f c => applyWrites f (shadowWrites surfaces tiles lightmap w c))
    (fun _ => 0)

/-- The byte stores of one lightmap entry of `Gnd::create_lightmap_image`
(src/gnd.rs:438-461): a posterised 8×8 RGB block plus the alpha layer. -/
def lightmapEntryWrites (lightmap : LightmapData) (width bufW : ℕ) (i : ℕ) :
    List (ℕ × ℕ) :=
  let per_cell := lightmap.per_cell
  let pos := i * 4 * per_cell
  let x := (i % width) * 8
  let y := (i / width) * 8
  (List.range 8).flatMap fun a => (List.range 8).map fun b =>
    let idx := ((x + a) + (y + b) * bufW) * 4
    (idx, lightmap.data (pos + per_cell + (a + b * 8) * 3) / 16 * 16)

/-- `Gnd::create_lightmap_image`, restricted to the red channel of each texel
(the three colour channels and the alpha layer are written the same way; one
channel is enough for the loader composition below and keeps the buffer
single-valued per index). -/
noncomputable def create_lightmap_image (lightmap : LightmapData) : ℕ → ℕ :=
  let width := (round (Real.sqrt (lightmap.count : ℝ))).toNat
  let bufW : ℕ := ⌊((2 : ℝ) ^ (⌈Real.logb 2 ((width : ℝ) * 8)⌉ : ℤ))⌋₊
  (List.range lightmap.count).foldl
    (fun f i => applyWrites f (lightmapEntryWrites lightmap width bufW i))
    (fun _ => 0)

/-- `Gnd::load_lightmaps` (src/gnd.rs:590-602). -/
def load_lightmaps (count per_cell_x per_cell_y size_cell : ℕ) (data : ℕ → ℕ) :
    LightmapData :=
  { per_cell := per_cell_x * per_cell_y * size_cell
    count := count
    data := data }

end Gnd

/-- The error a failed load surfaces; the source signals it with `panic!`. -/
inductive LoadError where
  | formatError (msg : String)

/-- The pre-split record values the byte-cursor reader yields for one GND
file.  Modelled from the spec: `crate::common::BinaryReader` is external to
the sources, so the binary layout of §6 (header magic, version bytes,
dimensions, then the texture, lightmap, tile and surface tables) is
represented by its parsed fields, in file order. -/
structure GndFile where
  header : String
  version_major : ℕ
  version_minor : ℕ
  width : ℕ
  height : ℕ
  zoom : ℚ
  texture_name_table : List String
  lightmap_count : ℕ
  lightmap_per_cell_x : ℕ
  lightmap_per_cell_y : ℕ
  lightmap_size_cell : ℕ
  lightmap_data : ℕ → ℕ
  raw_tiles : List RawTile
  raw_surfaces : ℕ → RawSurface

/-- The assembled ground map (`struct Gnd`). -/
structure Gnd where
  version : ℚ
  width : ℕ
  height : ℕ
  zoom : ℚ
  texture_names : List String
  texture_indices : List ℕ
  lightmaps : LightmapData
  lightmap_image : ℕ → ℕ
  tiles_color_image : ℕ → ℕ
  shadowmap_image : ℕ → ℕ
  tiles : List Tile
  surfaces : ℕ → Surface
  mesh : List Quad
  mesh_vert_count : ℕ
  water_vert_count : ℕ
  water_mesh : List WaterQuad

namespace Gnd

noncomputable instance : Inhabited Tile :=
  ⟨⟨0, 0, 0, 0, 0, 0, 0, 0, 0, 0, (0, 0, 0, 0)⟩⟩

/-- `Gnd::load` (src/gnd.rs:75-370).  The bad-header `panic!` is the error
case; the remaining body assembles the map from the table loaders.  Two
panics of the source are not threaded through the result because no claim
depends on them: an out-of-range tile reference inside the mesh loop (the
total `tiles.getD` stands in), and the debug `println!` that slices
`mesh[0..100]` and would abort on meshes of fewer than 100 quads.  The panic
of `Gnd::lightmap_atlas` on an empty lightmap grid is visible in that
function's `Option` result; the mesh loop resolves it with a zero default. -/
noncomputable def load (f : GndFile) (water_level water_height : ℚ) :
    Except LoadError Gnd :=
  if f.header ≠ "GRGN" then
    .error (.formatError ("Invalig Gnd header: " ++ f.header))
  else
    let version : ℚ := (f.version_major : ℚ) + (f.version_minor : ℚ) / 10
    let tex := load_textures f.texture_name_table
    let lightmaps := load_lightmaps f.lightmap_count f.lightmap_per_cell_x
      f.lightmap_per_cell_y f.lightmap_size_cell f.lightmap_data
    let tiles := load_tiles tex.1.length tex.2 f.raw_tiles
    let surfaces := load_surfaces f.raw_surfaces
    let normals := smooth_normal f.width f.height surfaces tiles
    let l_count_w : ℝ := ((round (Real.sqrt (lightmaps.count : ℝ)) : ℤ) : ℝ)
    let l_count_h : ℝ := ((⌈Real.sqrt (lightmaps.count : ℝ)⌉ : ℤ) : ℝ)
    let l_width : ℝ := (2 : ℝ) ^ (⌈Real.logb 2 (l_count_w * 8)⌉ : ℤ)
    let l_height : ℝ := (2 : ℝ) ^ (⌈Real.logb 2 (l_count_h * 8)⌉ : ℤ)
    let tilesF : ℕ → Tile := fun i => tiles.getD i default
    let luv : ℕ → ℝ × ℝ × ℝ × ℝ := fun light =>
      (lightmap_atlas light l_count_w l_count_h l_width l_height).getD (0, 0, 0, 0)
    let mesh := (cellList f.width f.height).flatMap fun c =>
      cellQuads surfaces tilesF normals luv f.width f.height c.1 c.2
    let water := (cellList f.width f.height).flatMap fun c =>
      cellWater water_level water_height surfaces f.width c.1 c.2
    .ok
      { version := version
        width := f.width
        height := f.height
        zoom := f.zoom
        texture_names := tex.1
        texture_indices := tex.2
        lightmaps := lightmaps
        lightmap_image := create_lightmap_image lightmaps
        tiles_color_image := create_tiles_color_image f.width f.height surfaces tilesF
        shadowmap_image := create_shadowmap_image f.width f.height surfaces tilesF lightmaps
        tiles := tiles
        surfaces := surfaces
        mesh := mesh
        mesh_vert_count := mesh.length / 12
        water_vert_count := water.length / 5
        water_mesh := water }

/-- Example cell with no faces, all heights below a zero water line. -/
def exSurfLow : Surface := ⟨fun _ => -10, -1, -1, -1⟩

/-- Example cell with no faces whose corner 0 has been raised to 10. -/
def exSurfNoTop : Surface := ⟨fun c => if c = 0 then 10 else -10, -1, -1, -1⟩

/-- Example cell with a top face (tile 0) and flat zero heights. -/
def exSurfFlat : Surface := ⟨fun _ => 0, 0, -1, -1⟩

/-- Example cell with no top or right face and `tile_front = -5`. -/
def exSurfFrontNeg : Surface := ⟨fun _ => 0, -1, -5, -1⟩

/-- An arbitrary concrete tile. -/
noncomputable def exTile : Tile := default

/-- An empty lightmap table. -/
def exLightmap : LightmapData := ⟨0, 0, fun _ => 0⟩

/-- Zero corner normals, for instantiating mesh lemmas. -/
noncomputable def exCorners : Corners := ⟨0, 0, 0, 0⟩

/-- A zero lightmap-UV resolver, for instantiating mesh lemmas. -/
noncomputable def exLuv : ℕ → ℝ × ℝ × ℝ × ℝ := fun _ => (0, 0, 0, 0)

/-- A file whose magic header is `"XXXX"` instead of `"GRGN"`. -/
def exFileXXXX : GndFile :=
  { header := "XXXX"
    version_major := 1
    version_minor := 7
    width := 1
    height := 1
    zoom := 10
    texture_name_table := []
    lightmap_count := 0
    lightmap_per_cell_x := 8
    lightmap_per_cell_y := 8
    lightmap_size_cell := 1
    lightmap_data := fun _ => 0
    raw_tiles := []
    raw_surfaces := fun _ => ⟨fun _ => 0, -1, -1, -1⟩ }

end Gnd

namespace Gnd

theorem btLookup_mem {k : String} {m : List (String × ℕ)} {v : ℕ}
    (h : btLookup k m = some v) : (k, v) ∈ m := by
  induction m with
  | nil => simp [btLookup] at h
  | cons p rest ih =>
    obtain ⟨k1, v1⟩ := p
    by_cases hk : k = k1
    · subst hk
      have hv : v1 = v := by simpa [btLookup] using h
      subst hv
      exact List.mem_cons_self _ _
    · simp only [btLookup, if_neg hk] at h
      exact List.mem_cons_of_mem _ (ih h)

theorem btLookup_none_not_mem {k : String} {m : List (String × ℕ)}
    (h : btLookup k m = none) : k ∉ m.map Prod.fst := by
  induction m with
  | nil => simp
  | cons p rest ih =>
    obtain ⟨k1, v1⟩ := p
    by_cases hk : k = k1
    · subst hk; simp [btLookup] at h
    · simp only [btLookup, if_neg hk] at h
      simpa [hk] using ih h

theorem btInsert_mem {k : String} {v : ℕ} {m : List (String × ℕ)} {p : String × ℕ}
    (h : p ∈ btInsert k v m) : p = (k, v) ∨ p ∈ m := by
  induction m with
  | nil => simpa [btInsert] using h
  | cons q rest ih =>
    obtain ⟨k1, v1⟩ := q
    by_cases h1 : k < k1
    · simp only [btInsert, if_pos h1] at h
      rcases List.mem_cons.1 h with h | h
      · exact Or.inl h
      · exact Or.inr h
    · by_cases h2 : k = k1
      · simp only [btInsert, if_neg h1, if_pos h2] at h
        rcases List.mem_cons.1 h with h | h
        · exact Or.inl h
        · exact Or.inr (List.mem_cons_of_mem _ h)
      · simp only [btInsert, if_neg h1, if_neg h2] at h
        rcases List.mem_cons.1 h with h | h
        · exact Or.inr (by simp [h])
        · rcases ih h with h | h
          · exact Or.inl h
          · exact Or.inr (List.mem_cons_of_mem _ h)

theorem btInsert_length {k : String} {v : ℕ} {m : List (String × ℕ)}
    (h : btLookup k m = none) : (btInsert k v m).length = m.length + 1 := by
  induction m with
  | nil => rfl
  | cons q rest ih =>
    obtain ⟨k1, v1⟩ := q
    by_cases hk : k = k1
    · subst hk; simp [btLookup] at h
    · simp only [btLookup, if_neg hk] at h
      by_cases h1 : k < k1
      · simp only [btInsert, if_pos h1, List.length_cons]
      · simp only [btInsert, if_neg h1, if_neg hk, List.length_cons, ih h]

theorem btInsert_keys_mem {k : String} {v : ℕ} {m : List (String × ℕ)} {a : String}
    (h : a ∈ (btInsert k v m).map Prod.fst) : a = k ∨ a ∈ m.map Prod.fst := by
  rcases List.mem_map.1 h with ⟨p, hp, rfl⟩
  rcases btInsert_mem hp with h | h
  · subst h; exact Or.inl rfl
  · exact Or.inr (List.mem_map_of_mem _ h)

theorem btInsert_keys_nodup {k : String} {v : ℕ} {m : List (String × ℕ)}
    (hk : k ∉ m.map Prod.fst) (hm : (m.map Prod.fst).Nodup) :
    ((btInsert k v m).map Prod.fst).Nodup := by
  induction m with
  | nil => simp [btInsert]
  | cons q rest ih =>
    obtain ⟨k1, v1⟩ := q
    simp only [List.map_cons, List.nodup_cons] at hm
    simp only [List.map_cons, List.mem_cons] at hk
    push_neg at hk
    by_cases h1 : k < k1
    · simp only [btInsert, if_pos h1, List.map_cons, List.nodup_cons]
      refine ⟨?_, hm.1, hm.2⟩
      simp only [List.mem_cons]
      push_neg
      exact ⟨hk.1, fun h => hk.2 h⟩
    · by_cases h2 : k = k1
      · exact absurd h2 hk.1
      · simp only [btInsert, if_neg h1, if_neg h2, List.map_cons, List.nodup_cons]
        refine ⟨?_, ih hk.2 hm.2⟩
        intro hmem
        rcases btInsert_keys_mem hmem with h | h
        · exact h2 h.symm
        · exact hm.1 h

/-- The invariant maintained by the `Gnd::load_textures` loop: every stored
dense index is below the current map size, and keys are distinct. -/
def texInv (st : List (String × ℕ) × List ℕ) : Prop :=
  (∀ p ∈ st.1, p.2 < st.1.length) ∧ (st.1.map Prod.fst).Nodup ∧
    ∀ v ∈ st.2, v < st.1.length

theorem texStep_inv {st : List (String × ℕ) × List ℕ} (h : texInv st)
    (name : String) : texInv (texStep st name) := by
  obtain ⟨hmap, hnd, hidx⟩ := h
  cases hl : btLookup name st.1 with
  | some v =>
    unfold texStep
    rw [hl]
    refine ⟨hmap, hnd, ?_⟩
    intro u hu
    rcases List.mem_append.1 hu with hu | hu
    · exact hidx u hu
    · rcases List.mem_singleton.1 hu with rfl
      exact hmap _ (btLookup_mem hl)
  | none =>
    unfold texStep
    rw [hl]
    show texInv (btInsert name st.1.length st.1, st.2 ++ [st.1.length])
    have hlen := btInsert_length (v := st.1.length) hl
    unfold texInv
    dsimp only
    refine ⟨?_, ?_, ?_⟩
    · intro p hp
      rcases btInsert_mem hp with rfl | hp
      · simp [hlen]
      · have := hmap p hp
        omega
    · exact btInsert_keys_nodup (btLookup_none_not_mem hl) hnd
    · intro u hu
      rcases List.mem_append.1 hu with hu | hu
      · have := hidx u hu
        omega
      · rcases List.mem_singleton.1 hu with rfl
        omega

theorem foldl_texStep_inv (names : List String)
    {st : List (String × ℕ) × List ℕ} (h : texInv st) :
    texInv (names.foldl texStep st) := by
  induction names generalizing st with
  | nil => exact h
  | cons n rest ih => exact ih (texStep_inv h n)

/-- Claim C9: after loading, every entry of `texture_indices` is a valid index
into `texture_names`, and `texture_names` has no duplicates. -/
theorem c9_texture_indices_bounds (names : List String) :
    (∀ v ∈ (load_textures names).2, v < (load_textures names).1.length) ∧
      (load_textures names).1.Nodup := by
  have h := foldl_texStep_inv names (⟨by simp, by simp, by simp⟩ : texInv ([], []))
  obtain ⟨-, hnd, hidx⟩ := h
  unfold load_textures
  exact ⟨by simpa using hidx, hnd⟩

/-- Witness for C9 at the concrete name table `["b", "a", "b"]`. -/
theorem c9_witness :
    (0 ∈ (load_textures ["b", "a", "b"]).2 ∧
        0 < (load_textures ["b", "a", "b"]).1.length) ∧
      (load_textures ["b", "a", "b"]).1.Nodup :=
  ⟨⟨by simp [load_textures, texStep, btLookup, btInsert],
      (c9_texture_indices_bounds ["b", "a", "b"]).1 0
        (by simp [load_textures, texStep, btLookup, btInsert])⟩,
    (c9_texture_indices_bounds ["b", "a", "b"]).2⟩

end Gnd

namespace Gnd

/-- Claim C1: evaluation of `Gnd::load_textures` on the two-slot name table
`"bb", "aa"`.  The dense indices are assigned in first-seen order
(`[0, 1]`), but the returned name list comes from iterating the `BTreeMap`
in sorted key order (`["aa", "bb"]`), so
`texture_names[texture_indices[0]] = "aa" ≠ "bb"`, the name read at slot 0 —
and the name list is not ordered by first occurrence in the file. -/
theorem c1_code_eval :
    load_textures ["bb", "aa"] = (["aa", "bb"], [0, 1]) ∧
      (load_textures ["bb", "aa"]).1.getD 0 "" ≠ "bb" := by
  have h : load_textures ["bb", "aa"] = (["aa", "bb"], [0, 1]) := by
    simp only [load_textures, List.foldl, texStep, btLookup, btInsert]
    norm_num
    decide
  refine ⟨h, ?_⟩
  rw [h]
  decide

/-- Claim C5: evaluation of `Gnd::lightmap_atlas` with `l_count_w = 0`.
The result is `none`, i.e. the Rust code panics computing the column index
`i % (l_count_w as u16)`; only the row index is guarded by
`checked_div(..).unwrap_or(0)`. -/
theorem c5_code_eval : lightmap_atlas 3 0 0 0 0 = none := by
  simp [lightmap_atlas]

/-- Claim C10: a buffer whose four header bytes are not `"GRGN"` makes
`Gnd::load` fail (the source panics with "Invalig Gnd header"; the model
surfaces it as a `FormatError`), and no map value is produced. -/
theorem c10_bad_header (f : GndFile) (water_level water_height : ℚ)
    (h : f.header ≠ "GRGN") :
    load f water_level water_height =
        Except.error (LoadError.formatError ("Invalig Gnd header: " ++ f.header)) ∧
      ∀ g : Gnd, load f water_level water_height ≠ Except.ok g := by
  constructor
  · rw [load, if_pos h]
  · intro g hg
    rw [load, if_pos h] at hg
    cases hg

/-- Witness for C10 at the concrete header `"XXXX"`. -/
theorem c10_witness :
    ("XXXX" : String) ≠ "GRGN" ∧
      load exFileXXXX 0 0 =
        Except.error (LoadError.formatError ("Invalig Gnd header: " ++ "XXXX")) :=
  ⟨by decide, (c10_bad_header exFileXXXX 0 0 (by decide)).1⟩

end Gnd

namespace Gnd

/-- Claim C4 counterexample: for a cell with `tile_up = -1` (and
`water_level = water_height = 0`), raising corner 0 from −10 to 10 — above
`water_level - water_height` — still emits no water quad, because the water
push sits inside the `tile_up > -1` branch of the mesh loop.  The claim's
"raising any corner height above water_level - water_height causes a water
quad to appear if none existed" therefore fails at this input. -/
theorem c4_counterexample :
    cellWater 0 0 (fun _ => exSurfLow) 1 0 0 = [] ∧
      cellWater 0 0 (fun _ => exSurfNoTop) 1 0 0 = [] ∧
      exSurfNoTop.height 0 > 0 - 0 := by
  refine ⟨?_, ?_, ?_⟩
  · simp [cellWater, exSurfLow]
  · simp [cellWater, exSurfNoTop]
  · norm_num [exSurfNoTop]

/-- Claim C4 (amended): water-quad emission is monotone in the corner heights,
and raising a corner above `water_level - water_height` forces a water quad —
for cells that have a top tile (`tile_up > -1`); cells without a top tile
never emit a water quad, whatever their heights. -/
theorem c4_amended (water_level water_height : ℚ)
    (surfaces surfaces' : ℕ → Surface) (w x y : ℕ)
    (htile : (surfaces' (x + y * w)).tile_up = (surfaces (x + y * w)).tile_up)
    (hmono : ∀ c, (surfaces (x + y * w)).height c ≤ (surfaces' (x + y * w)).height c) :
    (cellWater water_level water_height surfaces w x y ≠ [] →
        cellWater water_level water_height surfaces' w x y ≠ []) ∧
      ((surfaces' (x + y * w)).tile_up > -1 →
        (∃ c, (surfaces' (x + y * w)).height c > water_level - water_height) →
        cellWater water_level water_height surfaces' w x y ≠ []) ∧
      ((surfaces' (x + y * w)).tile_up = -1 →
        cellWater water_level water_height surfaces' w x y = []) := by
  refine ⟨?_, ?_, ?_⟩
  · intro hne
    unfold cellWater at hne ⊢
    by_cases hup : (surfaces (x + y * w)).tile_up > -1
    case neg => rw [if_neg hup] at hne; exact absurd rfl hne
    rw [if_pos hup] at hne
    rw [if_pos (htile ▸ hup)]
    by_cases hc : (surfaces (x + y * w)).height 0 > water_level - water_height ∨
        (surfaces (x + y * w)).height 1 > water_level - water_height ∨
        (surfaces (x + y * w)).height 2 > water_level - water_height ∨
        (surfaces (x + y * w)).height 3 > water_level - water_height
    case neg => rw [if_neg hc] at hne; exact absurd rfl hne
    have hc' : (surfaces' (x + y * w)).height 0 > water_level - water_height ∨
        (surfaces' (x + y * w)).height 1 > water_level - water_height ∨
        (surfaces' (x + y * w)).height 2 > water_level - water_height ∨
        (surfaces' (x + y * w)).height 3 > water_level - water_height := by
      rcases hc with hc | hc | hc | hc
      · exact Or.inl (lt_of_lt_of_le hc (hmono 0))
      · exact Or.inr (Or.inl (lt_of_lt_of_le hc (hmono 1)))
      · exact Or.inr (Or.inr (Or.inl (lt_of_lt_of_le hc (hmono 2))))
      · exact Or.inr (Or.inr (Or.inr (lt_of_lt_of_le hc (hmono 3))))
    rw [if_pos hc']
    simp
  · intro hup ⟨c, hc⟩
    unfold cellWater
    rw [if_pos hup]
    have hc' : (surfaces' (x + y * w)).height 0 > water_level - water_height ∨
        (surfaces' (x + y * w)).height 1 > water_level - water_height ∨
        (surfaces' (x + y * w)).height 2 > water_level - water_height ∨
        (surfaces' (x + y * w)).height 3 > water_level - water_height := by
      fin_cases c
      · exact Or.inl hc
      · exact Or.inr (Or.inl hc)
      · exact Or.inr (Or.inr (Or.inl hc))
      · exact Or.inr (Or.inr (Or.inr hc))
    rw [if_pos hc']
    simp
  · intro hup
    unfold cellWater
    rw [if_neg (by rw [hup]; exact lt_irrefl _)]

/-- Witness for C4 (amended) on a concrete 1×1 grid: the cell has a top tile,
corner 0 of the raised grid exceeds the zero water line, so a water quad is
emitted for the raised grid. -/
theorem c4_witness :
    ((fun _ : ℕ => exSurfFlat) (0 + 0 * 1)).tile_up =
        ((fun _ : ℕ => exSurfFlat) (0 + 0 * 1)).tile_up ∧
      (∀ c, ((fun _ : ℕ => exSurfFlat) (0 + 0 * 1)).height c ≤
        ((fun _ : ℕ => exSurfFlat) (0 + 0 * 1)).height c) ∧
      (((fun _ : ℕ => exSurfFlat) (0 + 0 * 1)).tile_up > -1 ∧
        ((fun _ : ℕ => exSurfFlat) (0 + 0 * 1)).height 0 > 0 - 1) ∧
      cellWater 0 1 (fun _ => exSurfFlat) 1 0 0 ≠ [] :=
  ⟨rfl, fun _ => le_refl _, ⟨by decide, by norm_num [exSurfFlat]⟩,
    (c4_amended 0 1 (fun _ => exSurfFlat) (fun _ => exSurfFlat) 1 0 0 rfl
        (fun _ => le_refl _)).2.1 (by decide) ⟨0, by norm_num [exSurfFlat]⟩⟩

end Gnd

namespace Gnd

theorem applyWrites_cons (f : ℕ → ℕ) (p : ℕ × ℕ) (ws : List (ℕ × ℕ)) :
    applyWrites f (p :: ws) = applyWrites (updateF f p.1 p.2) ws := rfl

theorem applyWrites_not_mem {f : ℕ → ℕ} {ws : List (ℕ × ℕ)} {t : ℕ}
    (h : ∀ p ∈ ws, p.1 ≠ t) : applyWrites f ws t = f t := by
  induction ws generalizing f with
  | nil => rfl
  | cons p rest ih =>
    rw [applyWrites_cons, ih (fun q hq => h q (List.mem_cons_of_mem _ hq))]
    simp only [updateF]
    rw [if_neg (fun ht => h p (List.mem_cons_self _ _) ht.symm)]

theorem applyWrites_const {f : ℕ → ℕ} {ws : List (ℕ × ℕ)} {t v : ℕ}
    (hv : ∀ p ∈ ws, p.2 = v) (ht : ∃ p ∈ ws, p.1 = t) :
    applyWrites f ws t = v := by
  induction ws generalizing f with
  | nil => simp at ht
  | cons p rest ih =>
    rw [applyWrites_cons]
    by_cases hr : ∃ q ∈ rest, q.1 = t
    · exact ih (fun q hq => hv q (List.mem_cons_of_mem _ hq)) hr
    · have hp : p.1 = t := by
        rcases ht with ⟨q, hq, hqt⟩
        rcases List.mem_cons.1 hq with rfl | hq
        · exact hqt
        · exact absurd ⟨q, hq, hqt⟩ hr
      rw [applyWrites_not_mem (fun q hq hqt => hr ⟨q, hq, hqt⟩)]
      simp only [updateF, if_pos hp.symm]
      exact hv p (List.mem_cons_self _ _)

theorem mem_cellList {w h : ℕ} {c : ℕ × ℕ} :
    c ∈ cellList w h ↔ c.1 < w ∧ c.2 < h := by
  obtain ⟨a, b⟩ := c
  simp only [cellList, List.mem_flatMap, List.mem_map, List.mem_range]
  constructor
  · rintro ⟨y, hy, x, hx, heq⟩
    cases heq
    exact ⟨hx, hy⟩
  · rintro ⟨ha, hb⟩
    exact ⟨b, hb, a, ha, rfl⟩

theorem cellList_nodup (w h : ℕ) : (cellList w h).Nodup := by
  unfold cellList
  rw [List.nodup_flatMap]
  constructor
  · intro y _
    exact (List.nodup_range w).map (fun a b hab => by simpa using hab)
  · refine (List.nodup_range h).imp ?_
    intro y1 y2 hne p hp1 hp2
    simp only [List.mem_map, List.mem_range] at hp1 hp2
    obtain ⟨x1, _, rfl⟩ := hp1
    obtain ⟨x2, _, heq⟩ := hp2
    exact hne (congrArg Prod.snd heq).symm

theorem addMulCancel {a b c d m : ℕ} (ha : a < m) (hc : c < m)
    (h : a + b * m = c + d * m) : a = c ∧ b = d := by
  have h1 : a = c := by
    have h2 := congrArg (fun n => n % m) h
    simpa [Nat.add_mul_mod_self_right, Nat.mod_eq_of_lt ha, Nat.mod_eq_of_lt hc] using h2
  subst h1
  have hm : 0 < m := Nat.lt_of_le_of_lt (Nat.zero_le a) ha
  have h3 : b * m = d * m := by omega
  exact ⟨rfl, Nat.eq_of_mul_eq_mul_right hm h3⟩

theorem cellIdx_inj {x x' y y' w : ℕ} (hx : x < w) (hx' : x' < w)
    (h : y * w + x = y' * w + x') : x = x' ∧ y = y' := by
  have h' : x + y * w = x' + y' * w := by omega
  exact addMulCancel hx hx' h'

theorem shadowIdx_inj {x x' y y' i i' j j' w : ℕ} (hx : x < w) (hx' : x' < w)
    (hi : i < 8) (hi' : i' < 8) (hj : j < 8) (hj' : j' < 8)
    (h : (x * 8 + i) + (y * 8 + j) * (w * 8) = (x' * 8 + i') + (y' * 8 + j') * (w * 8)) :
    x = x' ∧ y = y' ∧ i = i' ∧ j = j' := by
  have hcol : x * 8 + i < w * 8 := by omega
  have hcol' : x' * 8 + i' < w * 8 := by omega
  obtain ⟨h1, h2⟩ := addMulCancel hcol hcol' h
  refine ⟨by omega, by omega, by omega, by omega⟩

theorem foldl_applyWrites_not_mem {step : ℕ × ℕ → List (ℕ × ℕ)}
    {cells : List (ℕ × ℕ)} {f : ℕ → ℕ} {t : ℕ}
    (h : ∀ c ∈ cells, ∀ p ∈ step c, p.1 ≠ t) :
    cells.foldl (fun g c => applyWrites g (step c)) f t = f t := by
  induction cells generalizing f with
  | nil => rfl
  | cons c rest ih =>
    rw [List.foldl_cons, ih (fun c1 hc1 => h c1 (List.mem_cons_of_mem _ hc1))]
    exact applyWrites_not_mem (h c (List.mem_cons_self _ _))

theorem foldl_applyWrites_eq {step : ℕ × ℕ → List (ℕ × ℕ)}
    {cells : List (ℕ × ℕ)} {f : ℕ → ℕ} {t v : ℕ} {c0 : ℕ × ℕ}
    (hmem : c0 ∈ cells) (hnd : cells.Nodup)
    (hself : ∀ p ∈ step c0, p.2 = v) (hhit : ∃ p ∈ step c0, p.1 = t)
    (hother : ∀ c ∈ cells, c ≠ c0 → ∀ p ∈ step c, p.1 ≠ t) :
    cells.foldl (fun g c => applyWrites g (step c)) f t = v := by
  obtain ⟨s, u, rfl⟩ := List.append_of_mem hmem
  have hc0u : c0 ∉ u := (List.nodup_cons.1 hnd.of_append_right).1
  rw [List.foldl_append, List.foldl_cons]
  rw [foldl_applyWrites_not_mem (fun c hc => by
    refine hother c (by simp [hc]) ?_
    rintro rfl
    exact hc0u hc)]
  exact applyWrites_const hself hhit

theorem mem_colorWrites {surfaces : ℕ → Surface} {tiles : ℕ → Tile} {w : ℕ}
    {c : ℕ × ℕ} {p : ℕ × ℕ} (hp : p ∈ colorWrites surfaces tiles w c) :
    ∃ k, k < 4 ∧ p.1 = (c.2 * w + c.1) * 4 + k := by
  simp only [colorWrites] at hp
  split at hp
  · simp only [List.mem_cons, List.not_mem_nil, or_false] at hp
    rcases hp with rfl | rfl | rfl | rfl
    · exact ⟨0, by omega, by omega⟩
    · exact ⟨1, by omega, rfl⟩
    · exact ⟨2, by omega, rfl⟩
    · exact ⟨3, by omega, rfl⟩
  · simp at hp

theorem mem_shadowWrites {surfaces : ℕ → Surface} {tiles : ℕ → Tile}
    {lightmap : LightmapData} {w : ℕ} {c : ℕ × ℕ} {p : ℕ × ℕ}
    (hp : p ∈ shadowWrites surfaces tiles lightmap w c) :
    ∃ i j, i < 8 ∧ j < 8 ∧ p.1 = (c.1 * 8 + i) + (c.2 * 8 + j) * (w * 8) := by
  simp only [shadowWrites] at hp
  split at hp <;>
  · simp only [List.mem_flatMap, List.mem_map, List.mem_range] at hp
    obtain ⟨i, hi, j, hj, rfl⟩ := hp
    exact ⟨i, j, hi, hj, rfl⟩

/-- Claim C8: a cell whose `tile_up` is `-1` emits no top-face vertices, its
pixel in the tile-colour image stays zero, and its 8×8 block in the
shadow-map image is filled with 255 (full bright). -/
theorem c8_no_top_zero_color_full_shadow
    (surfaces : ℕ → Surface) (tiles : ℕ → Tile) (normals : ℕ → Corners)
    (luv : ℕ → ℝ × ℝ × ℝ × ℝ) (lightmap : LightmapData) (w h x y : ℕ)
    (hx : x < w) (hy : y < h) (hup : (surfaces (x + y * w)).tile_up = -1) :
    cellTop surfaces tiles normals luv w h x y = [] ∧
      (∀ k, k < 4 → create_tiles_color_image w h surfaces tiles ((y * w + x) * 4 + k) = 0) ∧
      (∀ i j, i < 8 → j < 8 →
        create_shadowmap_image w h surfaces tiles lightmap
          ((x * 8 + i) + (y * 8 + j) * (w * 8)) = 255) := by
  have hup2 : (surfaces (y * w + x)).tile_up = -1 := by
    rw [Nat.add_comm x (y * w)] at hup
    exact hup
  refine ⟨?_, ?_, ?_⟩
  · unfold cellTop
    rw [if_neg (by rw [hup]; exact lt_irrefl _)]
  · intro k hk
    unfold create_tiles_color_image
    apply foldl_applyWrites_not_mem
    intro c hc p hp
    by_cases hcxy : c = (x, y)
    · subst hcxy
      have hnil : colorWrites surfaces tiles w (x, y) = [] := by
        simp only [colorWrites]
        rw [if_neg (by rw [hup2]; exact lt_irrefl _)]
      rw [hnil] at hp
      simp at hp
    · obtain ⟨k1, hk1, hpeq⟩ := mem_colorWrites hp
      rw [hpeq]
      intro heq
      have heq' : k1 + (c.2 * w + c.1) * 4 = k + (y * w + x) * 4 := by omega
      obtain ⟨rfl, hcell⟩ := addMulCancel hk1 hk heq'
      have hc' := mem_cellList.1 hc
      obtain ⟨h1, h2⟩ := cellIdx_inj hc'.1 hx hcell
      exact hcxy (Prod.ext h1 h2)
  · intro i j hi hj
    unfold create_shadowmap_image
    have hmem0 : ((x, y) : ℕ × ℕ) ∈ cellList w h := mem_cellList.2 ⟨hx, hy⟩
    apply foldl_applyWrites_eq hmem0 (cellList_nodup w h)
    · intro p hp
      simp only [shadowWrites] at hp
      rw [if_neg (by rw [hup2]; exact lt_irrefl _)] at hp
      simp only [List.mem_flatMap, List.mem_map, List.mem_range] at hp
      obtain ⟨i1, _, j1, _, rfl⟩ := hp
      rfl
    · refine ⟨((x * 8 + i) + (y * 8 + j) * (w * 8), 255), ?_, rfl⟩
      simp only [shadowWrites]
      rw [if_neg (by rw [hup2]; exact lt_irrefl _)]
      simp only [List.mem_flatMap, List.mem_map, List.mem_range]
      exact ⟨i, hi, j, hj, rfl⟩
    · intro c hc hne p hp
      obtain ⟨i1, j1, hi1, hj1, hpeq⟩ := mem_shadowWrites hp
      rw [hpeq]
      intro heq
      have hc' := mem_cellList.1 hc
      obtain ⟨h1, h2, -, -⟩ := shadowIdx_inj hc'.1 hx hi1 hi hj1 hj heq
      exact hne (Prod.ext h1 h2)

/-- Witness for C8 on a concrete 1×1 grid whose only cell has `tile_up = -1`:
its colour pixel is zero and its shadow block is 255. -/
theorem c8_witness :
    (0 < 1 ∧ exSurfNoTop.tile_up = -1) ∧
      cellTop (fun _ => exSurfNoTop) (fun _ => exTile) (fun _ => exCorners) exLuv 1 1 0 0 = [] ∧
      create_tiles_color_image 1 1 (fun _ => exSurfNoTop) (fun _ => exTile)
        ((0 * 1 + 0) * 4 + 0) = 0 ∧
      create_shadowmap_image 1 1 (fun _ => exSurfNoTop) (fun _ => exTile) exLightmap
        ((0 * 8 + 0) + (0 * 8 + 0) * (1 * 8)) = 255 := by
  have h := c8_no_top_zero_color_full_shadow (fun _ => exSurfNoTop) (fun _ => exTile)
    (fun _ => exCorners) exLuv exLightmap 1 1 0 0 (by decide) (by decide) (by decide)
  exact ⟨⟨by decide, by decide⟩, h.1, h.2.1 0 (by decide), h.2.2 0 0 (by decide) (by decide)⟩

end Gnd

namespace Gnd

theorem cellTop_v0 {surfaces : ℕ → Surface} {tiles : ℕ → Tile}
    {normals : ℕ → Corners} {luv : ℕ → ℝ × ℝ × ℝ × ℝ} {w h x y : ℕ} {q : Quad}
    (hq : q ∈ cellTop surfaces tiles normals luv w h x y) :
    q.v0.pos.x = ((x : ℝ) + 0) * 2 ∧ q.v0.pos.z = ((y : ℝ) + 0) * 2 ∧
      ∃ n : Vec3, q.v0.normal = ⟨n.x, n.y, n.y⟩ := by
  simp only [cellTop] at hq
  split at hq
  · rcases List.mem_singleton.1 hq with rfl
    exact ⟨rfl, rfl, (normals (y * w + x)).ul, rfl⟩
  · simp at hq

theorem cellFront_v0 {surfaces : ℕ → Surface} {tiles : ℕ → Tile}
    {luv : ℕ → ℝ × ℝ × ℝ × ℝ} {w h x y : ℕ} {q : Quad}
    (hq : q ∈ cellFront surfaces tiles luv w h x y) :
    q.v0.normal = ⟨0, 0, 1⟩ ∧ q.v0.pos.x = ((x : ℝ) + 0) * 2 ∧
      q.v0.pos.z = ((y : ℝ) + 1) * 2 ∧
      ((surfaces (x + y * w)).tile_front > -1 ∧ y + 1 < h) := by
  simp only [cellFront] at hq
  split at hq
  case isTrue hg =>
    rcases List.mem_singleton.1 hq with rfl
    exact ⟨rfl, rfl, rfl, hg⟩
  case isFalse => simp at hq

theorem cellRight_v0 {surfaces : ℕ → Surface} {tiles : ℕ → Tile}
    {luv : ℕ → ℝ × ℝ × ℝ × ℝ} {w h x y : ℕ} {q : Quad}
    (hq : q ∈ cellRight surfaces tiles luv w h x y) :
    q.v0.normal = ⟨1, 0, 0⟩ ∧ q.v0.pos.x = ((x : ℝ) + 1) * 2 ∧
      q.v0.pos.z = ((y : ℝ) + 0) * 2 ∧
      ((surfaces (x + y * w)).tile_right > -1 ∧ x + 1 < w) := by
  simp only [cellRight] at hq
  split at hq
  case isTrue hg =>
    rcases List.mem_singleton.1 hq with rfl
    exact ⟨rfl, rfl, rfl, hg⟩
  case isFalse => simp at hq

theorem cellFront_exists {surfaces : ℕ → Surface} {tiles : ℕ → Tile}
    {luv : ℕ → ℝ × ℝ × ℝ × ℝ} {w h x y : ℕ}
    (hg : (surfaces (x + y * w)).tile_front > -1 ∧ y + 1 < h) :
    ∃ q ∈ cellFront surfaces tiles luv w h x y, IsFrontQuad y q := by
  simp only [cellFront]
  rw [if_pos hg]
  exact ⟨_, List.mem_singleton_self _, rfl, rfl⟩

theorem cellRight_exists {surfaces : ℕ → Surface} {tiles : ℕ → Tile}
    {luv : ℕ → ℝ × ℝ × ℝ × ℝ} {w h x y : ℕ}
    (hg : (surfaces (x + y * w)).tile_right > -1 ∧ x + 1 < w) :
    ∃ q ∈ cellRight surfaces tiles luv w h x y, IsRightQuad x q := by
  simp only [cellRight]
  rw [if_pos hg]
  exact ⟨_, List.mem_singleton_self _, rfl, rfl⟩

/-- Claim C7 (amended): for every cell `(x, y)` of every grid, a front-face
quad is emitted exactly when `tile_front > -1` (a valid non-negative tile
index) and `y + 1 < height`, and a right-face quad exactly when
`tile_right > -1` and `x + 1 < width`; in particular boundary cells never
emit a face pointing off-grid.  (The claim's `tile_front != -1` is replaced
by `tile_front > -1`: a negative reference other than `-1` also emits
nothing.) -/
theorem c7_amended (surfaces : ℕ → Surface) (tiles : ℕ → Tile)
    (normals : ℕ → Corners) (luv : ℕ → ℝ × ℝ × ℝ × ℝ) (w h x y : ℕ) :
    ((∃ q ∈ cellQuads surfaces tiles normals luv w h x y, IsFrontQuad y q) ↔
        ((surfaces (x + y * w)).tile_front > -1 ∧ y + 1 < h)) ∧
      ((∃ q ∈ cellQuads surfaces tiles normals luv w h x y, IsRightQuad x q) ↔
        ((surfaces (x + y * w)).tile_right > -1 ∧ x + 1 < w)) := by
  constructor
  · constructor
    · rintro ⟨q, hq, hfn, hfz⟩
      simp only [cellQuads, List.mem_append] at hq
      rcases hq with (hq | hq) | hq
      · obtain ⟨-, hpz, -⟩ := cellTop_v0 hq
        rw [hpz] at hfz
        norm_num at hfz
      · exact (cellFront_v0 hq).2.2.2
      · obtain ⟨hn, -, -, -⟩ := cellRight_v0 hq
        rw [hn] at hfn
        have := congrArg Vec3.x hfn
        norm_num at this
    · intro hg
      obtain ⟨q, hq, hfq⟩ := @cellFront_exists surfaces tiles luv w h x y hg
      exact ⟨q, by simp only [cellQuads, List.mem_append]; exact Or.inl (Or.inr hq), hfq⟩
  · constructor
    · rintro ⟨q, hq, hrn, hrx⟩
      simp only [cellQuads, List.mem_append] at hq
      rcases hq with (hq | hq) | hq
      · obtain ⟨hpx, -, -⟩ := cellTop_v0 hq
        rw [hpx] at hrx
        norm_num at hrx
      · obtain ⟨hn, -, -, -⟩ := cellFront_v0 hq
        rw [hn] at hrn
        have := congrArg Vec3.x hrn
        norm_num at this
      · exact (cellRight_v0 hq).2.2.2
    · intro hg
      obtain ⟨q, hq, hrq⟩ := @cellRight_exists surfaces tiles luv w h x y hg
      exact ⟨q, by simp only [cellQuads, List.mem_append]; exact Or.inr hq, hrq⟩

/-- Claim C7 counterexample: the cell `(0, 0)` of a 1×2 grid with
`tile_front = -5` satisfies the claim's condition `tile_front != -1` and
`y + 1 < height`, yet the loop emits no quad at all for it — the source
guard is `tile_front > -1`, not `tile_front != -1`. -/
theorem c7_counterexample :
    cellQuads (fun _ => exSurfFrontNeg) (fun _ => exTile) (fun _ => exCorners) exLuv
        1 2 0 0 = [] ∧
      exSurfFrontNeg.tile_front ≠ -1 ∧ (0 : ℕ) + 1 < 2 := by
  refine ⟨?_, by decide, by decide⟩
  simp only [cellQuads, cellTop, cellFront, cellRight, exSurfFrontNeg]
  norm_num

end Gnd

namespace Gnd

theorem pow_ceil_logb (n : ℕ) (hn : 1 ≤ n) :
    (2 : ℝ) ^ (⌈Real.logb 2 (n : ℝ)⌉ : ℤ) = ((2 ^ Nat.clog 2 n : ℕ) : ℝ) := by
  have hb : ((2 : ℕ) : ℝ) = (2 : ℝ) := by norm_num
  have h : ⌈Real.logb 2 (n : ℝ)⌉ = (Nat.clog 2 n : ℤ) := by
    rw [← hb, Real.ceil_logb_natCast (by positivity), Int.clog_natCast]
  rw [h]
  push_cast
  rw [zpow_natCast]

/-- Claim C3: the tile-atlas geometry of `Gnd::load_tiles`.  With
`c = round(sqrt T)` (as a machine integer) and `r = ceil(sqrt T)`, the code's
`atlas_cols`/`atlas_rows` equal `c`/`r`; `atlas_width`/`atlas_height` are the
least powers of two ≥ `c * 258` (resp. `r * 258`); and every raw UV corner is
remapped to `(u + u_raw*(1 - 2*px) + px) * (cols*258/atlas_width) / cols`
with `px = 1/258`, `u = texture % cols`, and symmetrically for `v` with
`v = floor(texture / cols)` and the row count. -/
theorem c3_atlas_formula (T : ℕ) (hT : 1 ≤ T) :
    1 ≤ atlas_cols_usize T ∧
      atlas_cols T = ((atlas_cols_usize T : ℕ) : ℝ) ∧
      atlas_rows T = ((⌈Real.sqrt (T : ℝ)⌉₊ : ℕ) : ℝ) ∧
      atlas_width T = ((2 ^ Nat.clog 2 (atlas_cols_usize T * 258) : ℕ) : ℝ) ∧
      atlas_cols_usize T * 258 ≤ 2 ^ Nat.clog 2 (atlas_cols_usize T * 258) ∧
      (∀ k : ℕ, atlas_cols_usize T * 258 ≤ 2 ^ k →
        Nat.clog 2 (atlas_cols_usize T * 258) ≤ k) ∧
      atlas_height T = ((2 ^ Nat.clog 2 (⌈Real.sqrt (T : ℝ)⌉₊ * 258) : ℕ) : ℝ) ∧
      ⌈Real.sqrt (T : ℝ)⌉₊ * 258 ≤ 2 ^ Nat.clog 2 (⌈Real.sqrt (T : ℝ)⌉₊ * 258) ∧
      (∀ k : ℕ, ⌈Real.sqrt (T : ℝ)⌉₊ * 258 ≤ 2 ^ k →
        Nat.clog 2 (⌈Real.sqrt (T : ℝ)⌉₊ * 258) ≤ k) ∧
      ∀ (texture : ℕ) (raw : RawTile),
        (tileOfRaw T texture raw).u1 =
          (((texture % atlas_cols_usize T : ℕ) : ℝ) + raw.u1 * (1 - 2 * (1 / 258)) + 1 / 258) *
            (((atlas_cols_usize T : ℕ) : ℝ) * 258 / atlas_width T) /
            ((atlas_cols_usize T : ℕ) : ℝ) ∧
        (tileOfRaw T texture raw).v1 =
          (((texture / atlas_cols_usize T : ℕ) : ℝ) + raw.v1 * (1 - 2 * (1 / 258)) + 1 / 258) *
            (((⌈Real.sqrt (T : ℝ)⌉₊ : ℕ) : ℝ) * 258 / atlas_height T) /
            ((⌈Real.sqrt (T : ℝ)⌉₊ : ℕ) : ℝ) := by
  have hs1 : (1 : ℝ) ≤ Real.sqrt (T : ℝ) := Real.one_le_sqrt.mpr (by exact_mod_cast hT)
  have hs0 : (0 : ℝ) ≤ Real.sqrt (T : ℝ) := by positivity
  have hr1 : (1 : ℤ) ≤ round (Real.sqrt (T : ℝ)) := by
    rw [round_eq]
    exact Int.le_floor.mpr (by push_cast; linarith)
  have hr0 : (0 : ℤ) ≤ round (Real.sqrt (T : ℝ)) := le_trans (by norm_num) hr1
  have h1 : 1 ≤ atlas_cols_usize T := by
    unfold atlas_cols_usize
    omega
  have h2 : atlas_cols T = ((atlas_cols_usize T : ℕ) : ℝ) := by
    unfold atlas_cols atlas_cols_usize
    exact_mod_cast congrArg (fun z : ℤ => (z : ℝ)) (Int.toNat_of_nonneg hr0).symm
  have hcr : 1 ≤ ⌈Real.sqrt (T : ℝ)⌉₊ :=
    Nat.one_le_ceil_iff.mpr (lt_of_lt_of_le one_pos hs1)
  have h3 : atlas_rows T = ((⌈Real.sqrt (T : ℝ)⌉₊ : ℕ) : ℝ) := by
    unfold atlas_rows
    rw [← Int.natCast_ceil_eq_ceil hs0]
    push_cast
    ring
  have h4 : atlas_width T = ((2 ^ Nat.clog 2 (atlas_cols_usize T * 258) : ℕ) : ℝ) := by
    unfold atlas_width
    rw [h2, show ((atlas_cols_usize T : ℕ) : ℝ) * 258 =
      ((atlas_cols_usize T * 258 : ℕ) : ℝ) by push_cast; ring]
    exact pow_ceil_logb _ (by omega)
  have h7 : atlas_height T = ((2 ^ Nat.clog 2 (⌈Real.sqrt (T : ℝ)⌉₊ * 258) : ℕ) : ℝ) := by
    unfold atlas_height
    rw [h3, show ((⌈Real.sqrt (T : ℝ)⌉₊ : ℕ) : ℝ) * 258 =
      ((⌈Real.sqrt (T : ℝ)⌉₊ * 258 : ℕ) : ℝ) by push_cast; ring]
    exact pow_ceil_logb _ (by omega)
  have hv : ∀ texture : ℕ, ((⌊(texture : ℝ) / ((atlas_cols_usize T : ℕ) : ℝ)⌋ : ℤ) : ℝ) =
      ((texture / atlas_cols_usize T : ℕ) : ℝ) := by
    intro texture
    rw [← Nat.floor_div_eq_div (α := ℝ) texture (atlas_cols_usize T)]
    exact (natCast_floor_eq_intCast_floor (by positivity)).symm
  refine ⟨h1, h2, h3, h4, Nat.le_pow_clog (by norm_num) _, ?_, h7,
    Nat.le_pow_clog (by norm_num) _, ?_, ?_⟩
  · intro k hk
    exact (Nat.le_pow_iff_clog_le (by norm_num)).mp hk
  · intro k hk
    exact (Nat.le_pow_iff_clog_le (by norm_num)).mp hk
  · intro texture raw
    simp only [tileOfRaw]
    rw [h2, h3, hv texture]
    constructor <;> ring

/-- Witness for C3 at texture count `T = 5`. -/
theorem c3_witness :
    (1 ≤ (5 : ℕ)) ∧ 1 ≤ atlas_cols_usize 5 ∧
      atlas_cols_usize 5 * 258 ≤ 2 ^ Nat.clog 2 (atlas_cols_usize 5 * 258) ∧
      atlas_width 5 = ((2 ^ Nat.clog 2 (atlas_cols_usize 5 * 258) : ℕ) : ℝ) :=
  ⟨by norm_num, (c3_atlas_formula 5 (by norm_num)).1,
    (c3_atlas_formula 5 (by norm_num)).2.2.2.2.1,
    (c3_atlas_formula 5 (by norm_num)).2.2.2.1⟩

end Gnd

namespace Gnd

theorem sub_eval (x1 y1 z1 x2 y2 z2 : ℝ) :
    (⟨x1, y1, z1⟩ : Vec3) - ⟨x2, y2, z2⟩ = ⟨x1 - x2, y1 - y2, z1 - z2⟩ := rfl

theorem add_eval (x1 y1 z1 x2 y2 z2 : ℝ) :
    (⟨x1, y1, z1⟩ : Vec3) + ⟨x2, y2, z2⟩ = ⟨x1 + x2, y1 + y2, z1 + z2⟩ := rfl

theorem normalize_y_neg (k : ℝ) (hk : 0 < k) :
    Vec3.normalize ⟨0, -k, 0⟩ = ⟨0, -1, 0⟩ := by
  unfold Vec3.normalize Vec3.norm
  have h : Real.sqrt ((0 : ℝ) ^ 2 + (-k) ^ 2 + 0 ^ 2) = k := by
    rw [show (0 : ℝ) ^ 2 + (-k) ^ 2 + 0 ^ 2 = k ^ 2 by ring, Real.sqrt_sq hk.le]
  simp only [h]
  simp [neg_div, div_self hk.ne']

theorem triangle_normal_flat (x1 z1 x2 z2 x3 z3 g : ℝ) :
    triangle_normal ⟨x1, g, z1⟩ ⟨x2, g, z2⟩ ⟨x3, g, z3⟩ =
      Vec3.normalize ⟨0, (z1 - z2) * (x1 - x3) - (x1 - x2) * (z1 - z3), 0⟩ := by
  unfold triangle_normal
  congr 1
  simp only [sub_eval, Vec3.cross]
  simp only [Vec3.mk.injEq]
  refine ⟨by ring_nf, by ring_nf, by ring_nf⟩

/-- The flat normal of a level cell (all four heights 0) points straight
down: `(0, -1, 0)` — the source winding makes it face `-y`. -/
theorem flat_normal_exSurfFlat (x y : ℕ) : flat_normal exSurfFlat x y = ⟨0, -1, 0⟩ := by
  simp only [flat_normal, exSurfFlat]
  rw [triangle_normal_flat, triangle_normal_flat]
  rw [show ((((y + 0) * 2 : ℕ) : ℝ) - (((y + 0) * 2 : ℕ) : ℝ)) *
        ((((x + 0) * 2 : ℕ) : ℝ) - (((x + 1) * 2 : ℕ) : ℝ)) -
      ((((x + 0) * 2 : ℕ) : ℝ) - (((x + 1) * 2 : ℕ) : ℝ)) *
        ((((y + 0) * 2 : ℕ) : ℝ) - (((y + 1) * 2 : ℕ) : ℝ)) = -4 by push_cast; ring]
  rw [show ((((y + 1) * 2 : ℕ) : ℝ) - (((y + 1) * 2 : ℕ) : ℝ)) *
        ((((x + 1) * 2 : ℕ) : ℝ) - (((x + 0) * 2 : ℕ) : ℝ)) -
      ((((x + 1) * 2 : ℕ) : ℝ) - (((x + 0) * 2 : ℕ) : ℝ)) *
        ((((y + 1) * 2 : ℕ) : ℝ) - (((y + 0) * 2 : ℕ) : ℝ)) = -4 by push_cast; ring]
  rw [normalize_y_neg 4 (by norm_num), add_eval]
  norm_num
  rw [show ({ x := 0, y := -2, z := 0 } : Vec3) = ⟨0, -2, 0⟩ from rfl,
    normalize_y_neg 2 (by norm_num)]

/-- Claim C2: evaluation of the neighbour lookup `or` at offset
`(x, y) = (width, 0)` for a 1×2 grid whose two cells are flat with a top
tile.  The offset lies outside the grid (x = width), yet the lookup returns
the flat normal `(0, -1, 0)` of cell `(0, 1)` — the linearised index
`0 * width + width` wraps to the first cell of the next row — not the zero
vector the claim requires.  Consequently the up-right corner sum of cell
`(0, 0)` is `(0, -2, 0)`, not the `(0, -1, 0)` that summing a zero
contribution would give. -/
theorem c2_code_eval :
    Gnd.or (flat_normals 1 2 (fun _ => exSurfFlat)) (1 * 2) 1 0 1 =
        flat_normal exSurfFlat 0 1 ∧
      flat_normal exSurfFlat 0 1 = ⟨0, -1, 0⟩ ∧
      (⟨0, -1, 0⟩ : Vec3) ≠ 0 ∧
      flat_normals 1 2 (fun _ => exSurfFlat) 0 +
          Gnd.or (flat_normals 1 2 (fun _ => exSurfFlat)) (1 * 2) 1 0 1 +
          Gnd.or (flat_normals 1 2 (fun _ => exSurfFlat)) (1 * 2) 1 (-1) 1 +
          Gnd.or (flat_normals 1 2 (fun _ => exSurfFlat)) (1 * 2) 0 (-1) 1 =
        ⟨0, -2, 0⟩ ∧
      flat_normals 1 2 (fun _ => exSurfFlat) 0 + 0 + 0 + 0 = ⟨0, -1, 0⟩ := by
  have htmp : ∀ i, i < 2 →
      flat_normals 1 2 (fun _ => exSurfFlat) i = ⟨0, -1, 0⟩ := by
    intro i hi
    simp only [flat_normals]
    rw [if_pos ⟨by omega, by norm_num [exSurfFlat]⟩]
    rw [flat_normal_exSurfFlat]
  have hor : Gnd.or (flat_normals 1 2 (fun _ => exSurfFlat)) (1 * 2) 1 0 1 =
      flat_normals 1 2 (fun _ => exSurfFlat) 1 := by
    simp only [Gnd.or]
    norm_num
  refine ⟨?_, flat_normal_exSurfFlat 0 1, ?_, ?_, ?_⟩
  · rw [hor, htmp 1 (by omega)]
    rw [flat_normal_exSurfFlat]
  · intro h
    rw [show (0 : Vec3) = ⟨0, 0, 0⟩ from rfl] at h
    simp only [Vec3.mk.injEq] at h
    norm_num at h
  · rw [hor, htmp 1 (by omega), htmp 0 (by omega)]
    rw [show Gnd.or (flat_normals 1 2 (fun _ => exSurfFlat)) (1 * 2) 1 (-1) 1 = 0 by
      simp [Gnd.or]]
    rw [show Gnd.or (flat_normals 1 2 (fun _ => exSurfFlat)) (1 * 2) 0 (-1) 1 = 0 by
      simp [Gnd.or]]
    rw [show (0 : Vec3) = ⟨0, 0, 0⟩ from rfl, add_eval, add_eval, add_eval]
    norm_num
  · rw [htmp 0 (by omega)]
    rw [show (0 : Vec3) = ⟨0, 0, 0⟩ from rfl, add_eval, add_eval, add_eval]
    norm_num

end Gnd

namespace Gnd

/-- The smoothed corner normals of the single flat cell of a 1×1 grid: all
four corners are `(0, -1, 0)` (every neighbour offset is out of range and
contributes zero; the own flat normal is `(0, -1, 0)`). -/
theorem smooth_normal_exFlat :
    smooth_normal 1 1 (fun _ => exSurfFlat) [] 0 =
      ⟨⟨0, -1, 0⟩, ⟨0, -1, 0⟩, ⟨0, -1, 0⟩, ⟨0, -1, 0⟩⟩ := by
  have htmp : flat_normals 1 1 (fun _ => exSurfFlat) 0 = ⟨0, -1, 0⟩ := by
    simp only [flat_normals]
    rw [if_pos ⟨by omega, by norm_num [exSurfFlat]⟩]
    rw [flat_normal_exSurfFlat]
  simp only [smooth_normal]
  norm_num [Gnd.or]
  rw [htmp]
  rw [show (0 : Vec3) = ⟨0, 0, 0⟩ from rfl]
  simp only [add_eval]
  norm_num
  rw [show ({ x := 0, y := -1, z := 0 } : Vec3) = ⟨0, -1, 0⟩ from rfl,
    normalize_y_neg 1 (by norm_num)]

/-- Claim C6: evaluation of the top-face emission for a 1×1 grid whose single
flat cell has `tile_up = 0`.  The smoothed up-left corner normal is
`(0, -1, 0)`, but every emitted vertex carries `(0, -1, -1)`: the source
writes `[n[i][0], n[i][1], n[i][1]]` (src/gnd.rs:123 etc.), duplicating the
y component into the z slot instead of using the corner vector's third
component. -/
theorem c6_code_eval :
    (smooth_normal 1 1 (fun _ => exSurfFlat) [] 0).ul = ⟨0, -1, 0⟩ ∧
      (cellTop (fun _ => exSurfFlat) (fun _ => exTile)
          (smooth_normal 1 1 (fun _ => exSurfFlat) []) exLuv 1 1 0 0).map
        (fun q => (q.v0.normal, q.v1.normal, q.v2.normal, q.v3.normal,
          q.v4.normal, q.v5.normal)) =
      [(⟨0, -1, -1⟩, ⟨0, -1, -1⟩, ⟨0, -1, -1⟩, ⟨0, -1, -1⟩, ⟨0, -1, -1⟩,
        ⟨0, -1, -1⟩)] := by
  constructor
  · rw [smooth_normal_exFlat]
  · simp only [cellTop]
    rw [if_pos (show ((fun _ : ℕ => exSurfFlat) (0 + 0 * 1)).tile_up > -1 by
      norm_num [exSurfFlat])]
    simp only [List.map]
    norm_num
    rw [smooth_normal_exFlat]
    simp

end Gnd
